import Mathlib

/-!
Verification of the netmiko Arista and Endace drivers
(src/netmiko/arista/arista.py, src/netmiko/endace/endace_ssh.py).

Strings from the Python source are embedded as `List Char`.  Python
`str.replace(old, "")` (a single left-to-right pass removing all
non-overlapping occurrences) is embedded as `stripAll`, Python substring
containment (`old in s`) as `isSub`.
-/

set_option autoImplicit false
set_option linter.unusedVariables false

/-- Boolean test that `pat` is a leading segment of `s`. -/
def isPref : List Char → List Char → Bool
  | [], _ => true
  | _ :: _, [] => false
  | a :: as, b :: bs => if a = b then isPref as bs else false

/-- Boolean test that `pat` occurs contiguously somewhere inside `s`
(Python membership test `pat in s` for strings). -/
def isSub (pat : List Char) : List Char → Bool
  | [] => isPref pat []
  | c :: rest => isPref pat (c :: rest) || isSub pat rest

/-- Worker for `stripAll`, structurally recursive on a fuel argument so
that it evaluates by kernel reduction; the fuel only needs to dominate
the length of the scanned string. -/
def stripAllGo : Nat → List Char → List Char → List Char
  | _, _, [] => []
  | _, [], c :: rest => c :: rest
  | 0, _ :: _, c :: rest => c :: rest
  | fuel + 1, p :: pr, c :: rest =>
    if isPref (p :: pr) (c :: rest) then stripAllGo fuel (p :: pr) (rest.drop pr.length)
    else c :: stripAllGo fuel (p :: pr) rest

/-- Python `s.replace(pat, "")`: one left-to-right pass over `s`; at each
position, if `pat` starts there the occurrence is removed and scanning
resumes after it, otherwise the character is kept.  Python returns `s`
unchanged for `s.replace("", "")`, matching the empty-pattern equation. -/
def stripAll (pat s : List Char) : List Char := stripAllGo s.length pat s

theorem stripAllGo_nil (f : Nat) (pat : List Char) : stripAllGo f pat [] = [] := by
  cases f <;> cases pat <;> rfl

theorem stripAllGo_nilpat (f : Nat) (c : Char) (rest : List Char) :
    stripAllGo f [] (c :: rest) = c :: rest := by
  cases f <;> rfl

theorem stripAllGo_fuel : ∀ (f1 f2 : Nat) (pat s : List Char),
    s.length ≤ f1 → s.length ≤ f2 → stripAllGo f1 pat s = stripAllGo f2 pat s := by
  intro f1
  induction f1 with
  | zero =>
    intro f2 pat s h1 _
    have hs : s = [] := by
      cases s with
      | nil => rfl
      | cons c rest => simp at h1
    subst hs
    rw [stripAllGo_nil, stripAllGo_nil]
  | succ f ih =>
    intro f2 pat s h1 h2
    cases s with
    | nil => rw [stripAllGo_nil, stripAllGo_nil]
    | cons c rest =>
      cases pat with
      | nil => rw [stripAllGo_nilpat, stripAllGo_nilpat]
      | cons p pr =>
        cases f2 with
        | zero => simp at h2
        | succ f2' =>
          have hr : rest.length ≤ f := by simp at h1; omega
          have hr2 : rest.length ≤ f2' := by simp at h2; omega
          have hd : (rest.drop pr.length).length ≤ rest.length := by
            simp [List.length_drop]
          show (if isPref (p :: pr) (c :: rest) then
                  stripAllGo f (p :: pr) (rest.drop pr.length)
                else c :: stripAllGo f (p :: pr) rest) =
               (if isPref (p :: pr) (c :: rest) then
                  stripAllGo f2' (p :: pr) (rest.drop pr.length)
                else c :: stripAllGo f2' (p :: pr) rest)
          by_cases hp : isPref (p :: pr) (c :: rest)
          · rw [if_pos hp, if_pos hp]
            exact ih f2' _ _ (le_trans hd hr) (le_trans hd hr2)
          · rw [if_neg hp, if_neg hp, ih f2' (p :: pr) rest hr hr2]

theorem stripAll_nil (pat : List Char) : stripAll pat [] = [] := stripAllGo_nil 0 pat

theorem stripAll_cons (p c : Char) (pr rest : List Char) :
    stripAll (p :: pr) (c :: rest) =
      if isPref (p :: pr) (c :: rest) then stripAll (p :: pr) (rest.drop pr.length)
      else c :: stripAll (p :: pr) rest := by
  show (if isPref (p :: pr) (c :: rest) then
          stripAllGo rest.length (p :: pr) (rest.drop pr.length)
        else c :: stripAllGo rest.length (p :: pr) rest) = _
  by_cases hp : isPref (p :: pr) (c :: rest)
  · rw [if_pos hp, if_pos hp]
    exact stripAllGo_fuel _ _ _ _ (by simp [List.length_drop]) (le_refl _)
  · rw [if_neg hp, if_neg hp]
    rfl

example : stripAll "(s1)".data "loc1-core01(s1)#".data = "loc1-core01#".data := by decide

example : isSub ")#".data "loc1-core01(config)#".data = true := by decide

/-! ## Arista prompt quirks (AristaBase.check_config_mode)

The device can decorate its prompt with a secondary-supervisor marker,
for example `loc1-core01(s1)#`; `check_config_mode` removes every
occurrence of `"(s1)"` and then of `"(s2)"` from the text it read. -/

/-- The Arista secondary-supervisor prompt decoration, the string "(s1)". -/
def marker1 : List Char := ['(', 's', '1', ')']

/-- The Arista secondary-supervisor prompt decoration, the string "(s2)". -/
def marker2 : List Char := ['(', 's', '2', ')']

/-- The quirk-stripping step of `AristaBase.check_config_mode`:
`output.replace("(s1)", "").replace("(s2)", "")`. -/
def aristaStrip (s : List Char) : List Char := stripAll marker2 (stripAll marker1 s)

/-- `Deco ms u d` holds when `d` is obtained from the plain string `u` by
inserting copies of the marker strings of `ms` at arbitrary positions
(`d` is a decorated form of `u`). -/
inductive Deco (ms : List (List Char)) : List Char → List Char → Prop
  | nil : Deco ms [] []
  | cons (c : Char) {u d : List Char} : Deco ms u d → Deco ms (c :: u) (c :: d)
  | mark {m : List Char} (hm : m ∈ ms) {u d : List Char} :
      Deco ms u d → Deco ms u (m ++ d)

theorem isPref_append_self (p t : List Char) : isPref p (p ++ t) = true := by
  induction p with
  | nil => rfl
  | cons a as ih => simp [isPref, ih]

theorem isSub_of_isPref {p s : List Char} (h : isPref p s = true) :
    isSub p s = true := by
  cases s with
  | nil => simpa [isSub] using h
  | cons c rest => simp [isSub, h]

theorem isSub_tail {p : List Char} (c : Char) {rest : List Char}
    (h : isSub p rest = true) : isSub p (c :: rest) = true := by
  simp [isSub, h]

theorem isSub_cons_false {p : List Char} (c : Char) {rest : List Char}
    (h : isSub p (c :: rest) = false) : isSub p rest = false := by
  simp only [isSub, Bool.or_eq_false_iff] at h
  exact h.2

theorem stripAll_of_not_sub (pat : List Char) : ∀ (s : List Char),
    isSub pat s = false → stripAll pat s = s := by
  intro s
  induction s with
  | nil => intro _; exact stripAll_nil pat
  | cons c rest ih =>
    intro h
    have h' : isPref pat (c :: rest) = false ∧ isSub pat rest = false := by
      simpa only [isSub, Bool.or_eq_false_iff] using h
    cases pat with
    | nil => simp [isPref] at h'
    | cons p pr =>
      rw [stripAll_cons, if_neg (by simp [h'.1]), ih h'.2]

theorem stripAll_marker1_cons (c : Char) (rest : List Char) :
    stripAll marker1 (c :: rest) =
      if isPref marker1 (c :: rest) then stripAll marker1 (rest.drop 3)
      else c :: stripAll marker1 rest :=
  stripAll_cons '(' c ['s', '1', ')'] rest

theorem stripAll_marker2_cons (c : Char) (rest : List Char) :
    stripAll marker2 (c :: rest) =
      if isPref marker2 (c :: rest) then stripAll marker2 (rest.drop 3)
      else c :: stripAll marker2 rest :=
  stripAll_cons '(' c ['s', '2', ')'] rest

theorem stripAll_head_append (p : Char) (pr t : List Char) :
    stripAll (p :: pr) ((p :: pr) ++ t) = stripAll (p :: pr) t := by
  rw [List.cons_append, stripAll_cons,
    if_pos (by rw [← List.cons_append]; exact isPref_append_self (p :: pr) t),
    List.drop_left]

theorem stripAll_marker1_self (t : List Char) :
    stripAll marker1 (marker1 ++ t) = stripAll marker1 t :=
  stripAll_head_append '(' ['s', '1', ')'] t

theorem stripAll_marker2_self (t : List Char) :
    stripAll marker2 (marker2 ++ t) = stripAll marker2 t :=
  stripAll_head_append '(' ['s', '2', ')'] t

theorem stripAll_marker1_marker2 (t : List Char) :
    stripAll marker1 (marker2 ++ t) = marker2 ++ stripAll marker1 t := by
  rw [show marker2 ++ t = '(' :: 's' :: '2' :: ')' :: t from rfl]
  rw [stripAll_marker1_cons, if_neg (by simp [marker1, isPref])]
  rw [stripAll_marker1_cons, if_neg (by simp [marker1, isPref])]
  rw [stripAll_marker1_cons, if_neg (by simp [marker1, isPref])]
  rw [stripAll_marker1_cons, if_neg (by simp [marker1, isPref])]
  rfl

theorem markers_paren : ∀ m ∈ [marker1, marker2], ∃ t, m = '(' :: t := by
  intro m hm
  rcases List.mem_cons.mp hm with h | h
  · exact ⟨['s', '1', ')'], h⟩
  · rcases List.mem_cons.mp h with h2 | h2
    · exact ⟨['s', '2', ')'], h2⟩
    · simp at h2

theorem markers2_paren : ∀ m ∈ [marker2], ∃ t, m = '(' :: t := by
  intro m hm
  rcases List.mem_cons.mp hm with h | h
  · exact ⟨['s', '2', ')'], h⟩
  · simp at h

/-- A marker never straddles the boundary between plain characters and an
inserted marker: a pattern with no inner left parenthesis that starts the
decorated string also starts the plain string. -/
theorem deco_isPref_no_paren {ms : List (List Char)}
    (hms : ∀ m ∈ ms, ∃ t, m = '(' :: t) :
    ∀ {u d : List Char}, Deco ms u d → ∀ p : List Char,
      (∀ x ∈ p, x ≠ '(') → isPref p d = true → isPref p u = true := by
  intro u d hd
  induction hd with
  | nil => intro p _ hp; exact hp
  | @cons c u0 d0 hud ih =>
    intro p hpar hp
    cases p with
    | nil => rfl
    | cons a as =>
      simp only [isPref] at hp ⊢
      by_cases hac : a = c
      · rw [if_pos hac] at hp ⊢
        exact ih as (fun x hx => hpar x (List.mem_cons_of_mem a hx)) hp
      · rw [if_neg hac] at hp
        exact Bool.noConfusion hp
  | @mark m hm u0 d0 hud ih =>
    intro p hpar hp
    cases p with
    | nil => rfl
    | cons a as =>
      obtain ⟨t, hmeq⟩ := hms _ hm
      subst hmeq
      rw [List.cons_append] at hp
      simp only [isPref] at hp
      by_cases hac : a = '('
      · exact absurd hac (hpar a (List.mem_cons_self a as))
      · rw [if_neg hac] at hp
        exact Bool.noConfusion hp

/-- Stripping "(s1)" from a decorated string removes exactly the inserted
"(s1)" markers, leaving the plain string decorated only with "(s2)". -/
theorem strip_m1_deco : ∀ {u d : List Char}, Deco [marker1, marker2] u d →
    isSub marker1 u = false → Deco [marker2] u (stripAll marker1 d) := by
  intro u d hd
  induction hd with
  | nil => intro _; rw [stripAll_nil]; exact Deco.nil
  | @cons c u0 d0 hud ih =>
    intro hu
    rw [stripAll_marker1_cons]
    by_cases hp : isPref marker1 (c :: d0)
    · exfalso
      have h1 : '(' = c ∧ isPref ['s', '1', ')'] d0 = true := by
        simpa [marker1, isPref] using hp
      obtain ⟨hc, hrest⟩ := h1
      subst hc
      have hpu : isPref ['s', '1', ')'] u0 = true :=
        deco_isPref_no_paren markers_paren hud ['s', '1', ')'] (by decide) hrest
      have hsub : isSub marker1 ('(' :: u0) = true := by
        apply isSub_of_isPref
        simp [marker1, isPref, hpu]
      rw [hsub] at hu
      exact Bool.noConfusion hu
    · rw [if_neg hp]
      exact Deco.cons c (ih (isSub_cons_false c hu))
  | @mark m hm u0 d0 hud ih =>
    intro hu
    rcases List.mem_cons.mp hm with h1 | hrest
    · subst h1
      rw [stripAll_marker1_self]
      exact ih hu
    · rcases List.mem_cons.mp hrest with h2 | h2
      · subst h2
        rw [stripAll_marker1_marker2]
        exact Deco.mark (List.mem_singleton.mpr rfl) (ih hu)
      · simp at h2

/-- Stripping "(s2)" from a string decorated only with "(s2)" markers
recovers the plain string. -/
theorem strip_m2_deco : ∀ {u d : List Char}, Deco [marker2] u d →
    isSub marker2 u = false → stripAll marker2 d = u := by
  intro u d hd
  induction hd with
  | nil => intro _; exact stripAll_nil marker2
  | @cons c u0 d0 hud ih =>
    intro hu
    rw [stripAll_marker2_cons]
    by_cases hp : isPref marker2 (c :: d0)
    · exfalso
      have h1 : '(' = c ∧ isPref ['s', '2', ')'] d0 = true := by
        simpa [marker2, isPref] using hp
      obtain ⟨hc, hrest⟩ := h1
      subst hc
      have hpu : isPref ['s', '2', ')'] u0 = true :=
        deco_isPref_no_paren markers2_paren hud ['s', '2', ')'] (by decide) hrest
      have hsub : isSub marker2 ('(' :: u0) = true := by
        apply isSub_of_isPref
        simp [marker2, isPref, hpu]
      rw [hsub] at hu
      exact Bool.noConfusion hu
    · rw [if_neg hp, ih (isSub_cons_false c hu)]
  | @mark m hm u0 d0 hud ih =>
    intro hu
    have hm2 : m = marker2 := List.mem_singleton.mp hm
    subst hm2
    rw [stripAll_marker2_self]
    exact ih hu

/-- On a prompt decorated with "(s1)"/"(s2)" markers, the stripping step
of `check_config_mode` recovers the plain prompt exactly. -/
theorem aristaStrip_decorated {u d : List Char}
    (h1 : isSub marker1 u = false) (h2 : isSub marker2 u = false)
    (hd : Deco [marker1, marker2] u d) : aristaStrip d = u :=
  strip_m2_deco (strip_m1_deco hd h1) h2

/-- A marker-free string is a fixed point of the stripping step. -/
theorem aristaStrip_fixed {u : List Char}
    (h1 : isSub marker1 u = false) (h2 : isSub marker2 u = false) :
    aristaStrip u = u := by
  unfold aristaStrip
  rw [stripAll_of_not_sub marker1 u h1, stripAll_of_not_sub marker2 u h2]

theorem deco_refl (ms : List (List Char)) : ∀ u : List Char, Deco ms u u := by
  intro u
  induction u with
  | nil => exact Deco.nil
  | cons c rest ih => exact Deco.cons c ih

theorem deco_append {ms : List (List Char)} :
    ∀ {u1 d1 u2 d2 : List Char}, Deco ms u1 d1 → Deco ms u2 d2 →
      Deco ms (u1 ++ u2) (d1 ++ d2) := by
  intro u1 d1 u2 d2 h1 h2
  induction h1 with
  | nil => exact h2
  | cons c h ih => exact Deco.cons c ih
  | mark hm h ih => rw [List.append_assoc]; exact Deco.mark hm ih

/-! ## AristaBase.check_config_mode (src/netmiko/arista/arista.py)

The method writes `self.RETURN` to the channel, reads until `pattern`
matches (the read itself is the external Channel collaborator, so the
device text it returns is an explicit argument here), strips the quirk
markers and tests `check_string in output`. -/

/-- Default `check_string` of `AristaBase.check_config_mode`, the string ")#". -/
def aristaCheckStringDefault : List Char := [')', '#']

/-- Default `pattern` of `AristaBase.check_config_mode`, the raw regex
string `[>\#]`. -/
def aristaCheckPatternDefault : List Char := ['[', '>', '\\', '#', ']']

/-- `AristaBase.check_config_mode`: appends one write of the session line
terminator `ret` (`self.RETURN`) to the channel write log, records the
regex handed to `read_until_pattern`, and returns whether `check_string`
occurs in the read text after both quirk markers are stripped. -/
def arista_check_config_mode (ret : List Char) (writes : List (List Char))
    (readResult : List Char) (check_string pat : List Char) :
    List (List Char) × List Char × Bool :=
  (writes ++ [ret], pat, isSub check_string (aristaStrip readResult))

/-- `AristaBase.check_config_mode` called with its Python default
arguments (`check_string=")#"`, `pattern=r"[>\#]"`) on a session whose
line terminator is the default newline. -/
def arista_check_config_mode_defaults (writes : List (List Char))
    (readResult : List Char) : List (List Char) × List Char × Bool :=
  arista_check_config_mode ['\n'] writes readResult aristaCheckStringDefault
    aristaCheckPatternDefault

/-- Claim C1: for a prompt decorated with the quirk markers "(s1)"/"(s2)",
`check_config_mode` returns the same boolean as on the undecorated prompt
(for any check string), and the stripping step is idempotent on the
decorated prompt. -/
theorem arista_check_config_mode_quirk_invariant
    (u d cs : List Char)
    (h1 : isSub marker1 u = false) (h2 : isSub marker2 u = false)
    (hd : Deco [marker1, marker2] u d) :
    (arista_check_config_mode ['\n'] [] d cs aristaCheckPatternDefault).2.2 =
      (arista_check_config_mode ['\n'] [] u cs aristaCheckPatternDefault).2.2
    ∧ aristaStrip (aristaStrip d) = aristaStrip d := by
  have hds : aristaStrip d = u := aristaStrip_decorated h1 h2 hd
  have hus : aristaStrip u = u := aristaStrip_fixed h1 h2
  constructor
  · show isSub cs (aristaStrip d) = isSub cs (aristaStrip u)
    rw [hds, hus]
  · rw [hds, hus]

theorem arista_check_config_mode_quirk_invariant_witness :
    (arista_check_config_mode ['\n'] [] "loc1-core01(s1)#".data aristaCheckStringDefault
        aristaCheckPatternDefault).2.2 =
      (arista_check_config_mode ['\n'] [] "loc1-core01#".data aristaCheckStringDefault
        aristaCheckPatternDefault).2.2
    ∧ aristaStrip (aristaStrip "loc1-core01(s1)#".data) =
        aristaStrip "loc1-core01(s1)#".data :=
  arista_check_config_mode_quirk_invariant "loc1-core01#".data "loc1-core01(s1)#".data
    aristaCheckStringDefault (by decide) (by decide)
    (deco_append (deco_refl _ "loc1-core01".data)
      (Deco.mark (List.mem_cons_self marker1 [marker2]) (deco_refl _ "#".data)))

/-- Claim C4: each call of `AristaBase.check_config_mode` (with defaults)
appends exactly one newline write to the channel, requests a read until
the pattern `[>\#]`, strips every occurrence of "(s1)" and then of "(s2)"
from the text read, and returns whether ")#" occurs in the cleaned text;
the stripping is part of every call. -/
theorem arista_check_config_mode_trace (writes : List (List Char))
    (readResult : List Char) :
    arista_check_config_mode_defaults writes readResult =
      (writes ++ [['\n']], aristaCheckPatternDefault,
        isSub aristaCheckStringDefault (stripAll marker2 (stripAll marker1 readResult)))
    ∧ (writes ++ [['\n']]).length = writes.length + 1 := by
  constructor
  · rfl
  · simp

/-! ## AristaBase.config_mode (src/netmiko/arista/arista.py) -/

/-- The characters Python `re.escape` (Python 3.7 and later) prefixes
with a backslash: the special characters of the set
`()[]\x7b\x7d?*+-|^$\.&~#` together with space, tab, newline, carriage
return, vertical tab and form feed. -/
def reSpecialChars : List Char :=
  ['(', ')', '[', ']', '\x7b', '\x7d', '?', '*', '+', '-', '|', '^', '$',
   '\\', '.', '&', '~', '#', ' ', '\t', '\n', '\r', '\x0b', '\x0c']

/-- Python `re.escape`: prefix every special character with a backslash,
leave all other characters unchanged. -/
def reEscape (s : List Char) : List Char :=
  s.foldr (fun c acc => (if c ∈ reSpecialChars then ['\\', c] else [c]) ++ acc) []

/-- The numeric value of the Python flag `re.DOTALL`. -/
def reDOTALL : Nat := 16

/-- Default `config_command` of `AristaBase.config_mode`. -/
def aristaConfigCommandDefault : List Char := "configure terminal".data

/-- `AristaBase.config_mode`: replaces a zero `re_flags` by `re.DOTALL`,
and an empty `pattern` by
`re.escape(base_prompt[:16]) + ".*" + re.escape(")#")`, then forwards
`(config_command, pattern, re_flags)` to `super().config_mode`. -/
def arista_config_mode (base_prompt config_command pat : List Char)
    (re_flags : Nat) : List Char × List Char × Nat :=
  let flags := if re_flags = 0 then reDOTALL else re_flags
  let check_string := reEscape [')', '#']
  let pat2 :=
    if pat = [] then reEscape (base_prompt.take 16) ++ ('.' :: '*' :: check_string)
    else pat
  (config_command, pat2, flags)

/-- Claim C3: with an empty pattern argument, Arista `config_mode`
synthesizes the wait pattern as the regex-escaped 16-character prefix of
`base_prompt`, then `.*`, then the regex-escaped `)#`; with `re_flags`
zero it selects `re.DOTALL`. -/
theorem arista_config_mode_synthesis (base_prompt config_command : List Char) :
    arista_config_mode base_prompt config_command [] 0 =
      (config_command,
        reEscape (base_prompt.take 16) ++ ('.' :: '*' :: reEscape [')', '#']),
        reDOTALL)
    ∧ reEscape [')', '#'] = ['\\', ')', '\\', '#'] := by
  exact ⟨rfl, by decide⟩

/-! ## AristaFileTransfer (src/netmiko/arista/arista.py) -/

/-- The TransferJob fields the Arista transfer methods read. -/
structure AristaFT where
  source_file : List Char
  dest_file : List Char
  file_system : Option (List Char)
  direction : List Char

/-- Modelled from the spec: the base-class constructor
(`CiscoFileTransfer.__init__` chaining to `BaseFileTransfer.__init__`,
netmiko/cisco_base_connection.py and netmiko/scp_handler.py, not under
src/) stores the forwarded arguments as the TransferJob fields
("`sourceFile`, `destFile`: string", "`fileSystem`: string — target
filesystem root (e.g., a flash mount path), defaults to a vendor-specific
constant", "`direction`: enum \x7bPut, Get\x7d"). -/
def baseFileTransfer_init (source_file dest_file : List Char)
    (file_system : Option (List Char)) (direction : List Char) : AristaFT :=
  ⟨source_file, dest_file, file_system, direction⟩

/-- `AristaFileTransfer.__init__`: forwards its arguments unchanged to
the base-class constructor. -/
def aristaFileTransfer_init (source_file dest_file : List Char)
    (file_system : Option (List Char)) (direction : List Char) : AristaFT :=
  baseFileTransfer_init source_file dest_file file_system direction

/-- `AristaFileTransfer.__init__` with the Python defaults applied:
`file_system="/mnt/flash"`, `direction="put"`. -/
def aristaFileTransfer_init_defaults (source_file dest_file : List Char) : AristaFT :=
  aristaFileTransfer_init source_file dest_file (some "/mnt/flash".data) "put".data

/-- Claim C8: without explicit `file_system` or `direction` the job gets
the vendor constant "/mnt/flash" and direction "put"; explicitly supplied
values are passed through unchanged. -/
theorem aristaFileTransfer_defaults (source_file dest_file : List Char) :
    ((aristaFileTransfer_init_defaults source_file dest_file).file_system =
        some "/mnt/flash".data
      ∧ (aristaFileTransfer_init_defaults source_file dest_file).direction = "put".data)
    ∧ ∀ (fs : Option (List Char)) (dir : List Char),
        (aristaFileTransfer_init source_file dest_file fs dir).file_system = fs
        ∧ (aristaFileTransfer_init source_file dest_file fs dir).direction = dir
        ∧ (aristaFileTransfer_init source_file dest_file fs dir).source_file = source_file
        ∧ (aristaFileTransfer_init source_file dest_file fs dir).dest_file = dest_file :=
  ⟨⟨rfl, rfl⟩, fun _ _ => ⟨rfl, rfl, rfl, rfl⟩⟩

/-- Rendering of a Python Optional[str] inside an f-string: None renders
as the text "None". -/
def optStr : Option (List Char) → List Char
  | some s => s
  | none => "None".data

/-- `AristaFileTransfer.remote_md5`: resolves `remote_file` (defaulting
per `direction`), builds the verify command string, sends it with
`read_timeout=600` (the send itself is the external channel; the text it
returns is the `cmdOutput` argument) and returns `process_md5` applied to
that output (`process_md5` is inherited code outside this slice, passed
as a function).  The result pairs the sent command and its read timeout
with the extracted digest. -/
def remote_md5 (process_md5 : List Char → List Char) (cmdOutput : List Char)
    (ft : AristaFT) (base_cmd : List Char) (remote_file : Option (List Char)) :
    (List Char × Nat) × List Char :=
  let rf : Option (List Char) :=
    match remote_file with
    | some f => some f
    | none =>
      if ft.direction = "put".data then some ft.dest_file
      else if ft.direction = "get".data then some ft.source_file
      else none
  let cmd := base_cmd ++ " file:".data ++ optStr ft.file_system ++ "/".data ++ optStr rf
  ((cmd, 600), process_md5 cmdOutput)

/-- Claim C7: `remote_md5` sends exactly
`base_cmd + " file:" + file_system + "/" + remote_file` with a 600-second
read timeout, where the remote file defaults to `dest_file` for direction
"put" and to `source_file` for direction "get", and returns the digest
`process_md5` extracts from the command output. -/
theorem remote_md5_command (process_md5 : List Char → List Char)
    (cmdOutput : List Char) (ft : AristaFT) (base_cmd rf : List Char) :
    (ft.direction = "put".data →
      remote_md5 process_md5 cmdOutput ft base_cmd none =
        ((base_cmd ++ " file:".data ++ optStr ft.file_system ++ "/".data ++ ft.dest_file,
          600), process_md5 cmdOutput))
    ∧ (ft.direction = "get".data →
      remote_md5 process_md5 cmdOutput ft base_cmd none =
        ((base_cmd ++ " file:".data ++ optStr ft.file_system ++ "/".data ++ ft.source_file,
          600), process_md5 cmdOutput))
    ∧ remote_md5 process_md5 cmdOutput ft base_cmd (some rf) =
        ((base_cmd ++ " file:".data ++ optStr ft.file_system ++ "/".data ++ rf,
          600), process_md5 cmdOutput) := by
  refine ⟨fun hput => ?_, fun hget => ?_, rfl⟩
  · unfold remote_md5
    rw [hput]
    simp [optStr]
  · unfold remote_md5
    rw [hget]
    simp [optStr]

theorem remote_md5_command_witness :
    remote_md5 (fun s => s) "digest".data
        (aristaFileTransfer_init_defaults "a.bin".data "b.bin".data)
        "verify /md5".data none =
      (("verify /md5 file:/mnt/flash/b.bin".data, 600), "digest".data) := by
  have h := (remote_md5_command (fun s => s) "digest".data
    (aristaFileTransfer_init_defaults "a.bin".data "b.bin".data)
    "verify /md5".data "x".data).1 rfl
  rw [h]
  decide

/-- The argument type of `enable_scp`/`disable_scp`:
Python `Union[str, Sequence[str], None]`. -/
inductive ScpArg
  | noneArg : ScpArg
  | strArg : List Char → ScpArg
  | seqArg : List (List Char) → ScpArg

/-- The error the transfer methods can raise. -/
inductive TransferErr
  | notImplementedErr : TransferErr

/-- `AristaFileTransfer.enable_scp`: the body is `raise
NotImplementedError`; no channel write happens and the job state is
untouched. -/
def enable_scp (ft : AristaFT) (cmd : ScpArg) :
    Except TransferErr Unit × AristaFT × List (List Char) :=
  (Except.error TransferErr.notImplementedErr, ft, [])

/-- `AristaFileTransfer.disable_scp`: the body is `raise
NotImplementedError`; no channel write happens and the job state is
untouched. -/
def disable_scp (ft : AristaFT) (cmd : ScpArg) :
    Except TransferErr Unit × AristaFT × List (List Char) :=
  (Except.error TransferErr.notImplementedErr, ft, [])

/-- Claim C6: for every argument, `enable_scp` and `disable_scp` fail
with NotImplementedError, write nothing to the channel and leave the
transfer state unchanged. -/
theorem scp_toggles_not_implemented (ft : AristaFT) (cmd : ScpArg) :
    enable_scp ft cmd = (Except.error TransferErr.notImplementedErr, ft, [])
    ∧ disable_scp ft cmd = (Except.error TransferErr.notImplementedErr, ft, []) :=
  ⟨rfl, rfl⟩

/-! ## AristaTelnet / AristaSSH (src/netmiko/arista/arista.py) -/

/-- The carriage-return plus linefeed line terminator. -/
def crlf : List Char := ['\r', '\n']

/-- `AristaTelnet.__init__`: the `default_enter` keyword becomes "\r\n"
when absent or None, and is kept exactly as given otherwise. -/
def aristaTelnet_default_enter : Option (List Char) → List Char
  | none => crlf
  | some v => v

/-- `AristaSSH`: the class body is `pass`, so keyword arguments,
including `default_enter`, reach the base class unchanged. -/
def aristaSSH_default_enter (kw : Option (List Char)) : Option (List Char) := kw

/-- Claim C9: AristaTelnet sets the line terminator to CRLF when
`default_enter` is not supplied (or is None) and uses a supplied value
exactly as given; AristaSSH applies no such override. -/
theorem aristaTelnet_enter_override :
    aristaTelnet_default_enter none = ['\r', '\n']
    ∧ (∀ v : List Char, aristaTelnet_default_enter (some v) = v)
    ∧ (∀ kw : Option (List Char), aristaSSH_default_enter kw = kw) :=
  ⟨rfl, fun _ => rfl, fun _ => rfl⟩

/-! ## EndaceSSH (src/netmiko/endace/endace_ssh.py) -/

/-- The warning substring `EndaceSSH.config_mode` looks for in the
accumulated output. -/
def warningText : List Char := "to enter configuration mode anyway".data

/-- The confirmation token sent when the warning is present. -/
def yesToken : List Char := "YES".data

/-- The message of the ValueError raised when configuration mode is not
reached. -/
def endaceFailMsg : List Char := "Failed to enter configuration mode".data

/-- Default `config_command` of `EndaceSSH.config_mode`. -/
def endaceConfigCommandDefault : List Char := "conf t".data

/-- The device side of an Endace session as `config_mode` observes it:
`sendOut n cmd` is the text `send_command_timing` returns for the (n+1)-th
command sent during the call, and `inConfigAt n` is what
`check_config_mode` reports after n commands have been sent. -/
structure EndaceDev where
  sendOut : Nat → List Char → List Char
  inConfigAt : Nat → Bool

/-- `EndaceSSH.config_mode`: if not already in configuration mode, sends
`config_command`; if the accumulated output contains the warning text,
sends "YES"; then re-checks `check_config_mode`, raising
`ValueError("Failed to enter configuration mode")` when still not in
configuration mode.  Returns the outcome (the accumulated output, or the
message of the raised error) paired with the list of commands sent. -/
def endace_config_mode (dev : EndaceDev) (config_command : List Char) :
    Except (List Char) (List Char) × List (List Char) :=
  if dev.inConfigAt 0 then (Except.ok [], [])
  else
    let out1 := dev.sendOut 0 config_command
    if isSub warningText out1 then
      let out2 := dev.sendOut 1 yesToken
      if dev.inConfigAt 2 then (Except.ok (out1 ++ out2), [config_command, yesToken])
      else (Except.error endaceFailMsg, [config_command, yesToken])
    else
      if dev.inConfigAt 1 then (Except.ok out1, [config_command])
      else (Except.error endaceFailMsg, [config_command])

/-- A device that echoes the confirmation warning on every command and
never reaches configuration mode. -/
def endaceDevStuck : EndaceDev := ⟨fun _ _ => warningText, fun _ => false⟩

/-- Claim C2 as stated is false on the code: when the device stays out of
configuration mode after the confirmation, the raised error carries the
fixed message "Failed to enter configuration mode", not the accumulated
output. -/
theorem endace_config_mode_error_payload_fixed :
    (endace_config_mode endaceDevStuck endaceConfigCommandDefault).1 =
      Except.error endaceFailMsg
    ∧ endaceFailMsg ≠
        endaceDevStuck.sendOut 0 endaceConfigCommandDefault ++
          endaceDevStuck.sendOut 1 yesToken := by
  constructor
  · rfl
  · decide

/-- Claim C2 (amended): when not in configuration mode and the output of
the config command contains the warning text, `config_mode` sends the
config command and then exactly one "YES" confirmation, re-checks, and
when still not in configuration mode fails with the fixed ValueError
message "Failed to enter configuration mode" (the accumulated output is
not attached to the error); the confirmation token is never sent more
than once per call. -/
theorem endace_config_mode_warning_retry (dev : EndaceDev)
    (config_command : List Char)
    (hcmd : config_command ≠ yesToken)
    (h0 : dev.inConfigAt 0 = false)
    (hw : isSub warningText (dev.sendOut 0 config_command) = true) :
    (endace_config_mode dev config_command).2 = [config_command, yesToken]
    ∧ ((endace_config_mode dev config_command).2).count yesToken = 1
    ∧ (dev.inConfigAt 2 = false →
        (endace_config_mode dev config_command).1 = Except.error endaceFailMsg)
    ∧ (dev.inConfigAt 2 = true →
        (endace_config_mode dev config_command).1 =
          Except.ok (dev.sendOut 0 config_command ++ dev.sendOut 1 yesToken)) := by
  have hs : (endace_config_mode dev config_command).2 = [config_command, yesToken] := by
    by_cases h2 : dev.inConfigAt 2 <;> simp [endace_config_mode, h0, hw, h2]
  refine ⟨hs, ?_, fun h2 => ?_, fun h2 => ?_⟩
  · rw [hs]
    simp [List.count_cons, hcmd]
  · simp [endace_config_mode, h0, hw, h2]
  · simp [endace_config_mode, h0, hw, h2]

theorem endace_config_mode_warning_retry_witness :
    (endace_config_mode endaceDevStuck endaceConfigCommandDefault).2 =
      [endaceConfigCommandDefault, yesToken]
    ∧ ((endace_config_mode endaceDevStuck endaceConfigCommandDefault).2).count yesToken = 1
    ∧ (endaceDevStuck.inConfigAt 2 = false →
        (endace_config_mode endaceDevStuck endaceConfigCommandDefault).1 =
          Except.error endaceFailMsg)
    ∧ (endaceDevStuck.inConfigAt 2 = true →
        (endace_config_mode endaceDevStuck endaceConfigCommandDefault).1 =
          Except.ok (endaceDevStuck.sendOut 0 endaceConfigCommandDefault ++
            endaceDevStuck.sendOut 1 yesToken)) :=
  endace_config_mode_warning_retry endaceDevStuck endaceConfigCommandDefault
    (by decide) rfl (by decide)

/-- A device that is already in configuration mode. -/
def endaceDevIdle : EndaceDev := ⟨fun _ _ => [], fun _ => true⟩

/-- Claim C5: when the session is already in configuration mode, Endace
`config_mode` sends no command and no confirmation token, returns empty
output, and the session is still in configuration mode afterwards. -/
theorem endace_config_mode_idempotent (dev : EndaceDev)
    (config_command : List Char) (h : dev.inConfigAt 0 = true) :
    endace_config_mode dev config_command = (Except.ok [], [])
    ∧ dev.inConfigAt (endace_config_mode dev config_command).2.length = true := by
  have he : endace_config_mode dev config_command = (Except.ok [], []) := by
    unfold endace_config_mode
    rw [h]
    simp
  exact ⟨he, by rw [he]; exact h⟩

theorem endace_config_mode_idempotent_witness :
    endace_config_mode endaceDevIdle endaceConfigCommandDefault = (Except.ok [], [])
    ∧ endaceDevIdle.inConfigAt
        (endace_config_mode endaceDevIdle endaceConfigCommandDefault).2.length = true :=
  endace_config_mode_idempotent endaceDevIdle endaceConfigCommandDefault rfl

/-- The calls `EndaceSSH.save_config` makes, in order. -/
inductive EndaceCall
  | enableCall : EndaceCall
  | configModeCall : EndaceCall
  | superSaveConfigCall : List Char → Bool → List Char → EndaceCall

/-- Default `cmd` of `EndaceSSH.save_config`. -/
def endaceSaveCmdDefault : List Char := "configuration write".data

/-- `EndaceSSH.save_config`: calls `self.enable()`, then
`self.config_mode()`, then delegates to `super().save_config(cmd,
confirm, confirm_response)`; this is its call trace in order. -/
def endace_save_config (cmd : List Char) (confirm : Bool)
    (confirm_response : List Char) : List EndaceCall :=
  [EndaceCall.enableCall, EndaceCall.configModeCall,
   EndaceCall.superSaveConfigCall cmd confirm confirm_response]

/-- Claim C10: `save_config` invokes enable, then config_mode, and only
then delegates the save command (default "configuration write") to the
base implementation; the delegated save is the last call, after both mode
calls. -/
theorem endace_save_config_order (cmd : List Char) (confirm : Bool)
    (confirm_response : List Char) :
    endace_save_config cmd confirm confirm_response =
      [EndaceCall.enableCall, EndaceCall.configModeCall,
       EndaceCall.superSaveConfigCall cmd confirm confirm_response]
    ∧ (endace_save_config cmd confirm confirm_response).head? =
        some EndaceCall.enableCall
    ∧ (endace_save_config cmd confirm confirm_response).getLast? =
        some (EndaceCall.superSaveConfigCall cmd confirm confirm_response)
    ∧ endaceSaveCmdDefault = "configuration write".data :=
  ⟨rfl, rfl, rfl, rfl⟩
